import Mathlib

/-
Verification development for `scripts/ai_pr_reviewer/index.py`.

The Python script is embedded shallowly:
- strings are modelled as `String` / `List Char` (the script is ASCII-oriented;
  regex character classes are modelled at ASCII scope),
- Python dicts with string keys are modelled as association lists,
- the regular expressions of `analyze_diff` are embedded as hand-rolled
  matchers implementing `re.findall` semantics (leftmost, non-overlapping,
  greedy with backtracking, `re.IGNORECASE` where the source passes it),
- external effects (GitHub HTTP calls, the Anthropic streaming call,
  `json.loads`, the clock, the filesystem) are passed in explicitly as
  values of an environment record or as function parameters.
-/

set_option maxRecDepth 8000

namespace PRReviewer

/-! ### Basic character helpers (ASCII scope of the Python regexes) -/

/-- The single-quote character, written via its code point. -/
def squote : Char := Char.ofNat 39

/-- The `{` character, written via its code point. -/
def lbrace : Char := Char.ofNat 123

/-- The `}` character, written via its code point. -/
def rbrace : Char := Char.ofNat 125

/-- Quote class `["\']` used by the fetch/axios/requests/os.environ patterns. -/
def isQuote (c : Char) : Bool := c == '"' || c == squote

/-- ASCII lower-casing, used to model `re.IGNORECASE` literal matching. -/
def lowerAscii (c : Char) : Char :=
  if 'A' ≤ c && c ≤ 'Z' then Char.ofNat (c.toNat + 32) else c

/-- First char class of env-var names: `[A-Z_]` under `re.IGNORECASE`,
i.e. ASCII letters and underscore. -/
def isNameStart (c : Char) : Bool := c.isAlpha || c == '_'

/-- Continuation class of env-var names: `[A-Z0-9_]` under `re.IGNORECASE`. -/
def isNameChar (c : Char) : Bool := c.isAlphanum || c == '_'

/-- Host char class `[a-zA-Z0-9.-]` of the bare-URL pattern. -/
def isHostChar (c : Char) : Bool := c.isAlphanum || c == '.' || c == '-'

/-! ### List-of-chars utilities mirroring the Python string operations -/

/-- `isPrefixOfCh p s` is `str.startswith`: `p` is a literal prefix of `s`. -/
def isPrefixOfCh : List Char → List Char → Bool
  | [], _ => true
  | _ :: _, [] => false
  | c :: cs, x :: xs => c == x && isPrefixOfCh cs xs

/-- Case-insensitive literal match (models a regex literal under
`re.IGNORECASE`); returns the consumed characters (original case) and the
rest of the input. -/
def tryLitCI : List Char → List Char → Option (List Char × List Char)
  | [], s => some ([], s)
  | _ :: _, [] => none
  | c :: cs, x :: xs =>
    if lowerAscii c == lowerAscii x then
      match tryLitCI cs xs with
      | some (m, r) => some (x :: m, r)
      | none => none
    else none

/-- `s.split('\n')` of Python: split on newline, keeping empty segments.
This is also exactly the family of segments whose starts are the positions
matched by `^` in `re.MULTILINE` mode. -/
def linesNl : List Char → List (List Char)
  | [] => [[]]
  | x :: xs =>
    if x == '\n' then [] :: linesNl xs
    else
      match linesNl xs with
      | l :: ls => (x :: l) :: ls
      | [] => [[x]]

/-- Python `s.split(sep)` for a non-empty separator: leftmost,
non-overlapping occurrences. Fuel-driven; `splitOnL` supplies enough fuel. -/
def splitOnAux (sep : List Char) : Nat → List Char → List Char → List (List Char)
  | _, acc, [] => [acc.reverse]
  | 0, acc, rest => [acc.reverse ++ rest]
  | fuel + 1, acc, x :: xs =>
    if isPrefixOfCh sep (x :: xs) then
      acc.reverse :: splitOnAux sep fuel [] ((x :: xs).drop sep.length)
    else splitOnAux sep fuel (x :: acc) xs

/-- Python `s.split(sep)` (non-empty `sep`). -/
def splitOnL (sep s : List Char) : List (List Char) := splitOnAux sep s.length [] s

/-- Python `list[-1]` on the (never empty) result of `str.split`. -/
def lastD (l : List (List Char)) : List Char := l.getLastD []

/-- Does a (split) line begin with character `c`? -/
def startsWithChar (c : Char) (l : List Char) : Bool :=
  match l with
  | [] => false
  | x :: _ => x == c

/-! ### `len(re.findall(r'^\+', s, re.MULTILINE))`

In `re.MULTILINE` mode `^` matches at position 0 and immediately after every
`'\n'`.  `countMultilineStart c s` counts those positions whose next
character is `c`: the head-of-string check plus, for every `'\n'` in `s`,
a check of the character that follows it. -/

/-- Matches of `^c` (MULTILINE) strictly after the start of the string:
for each `'\n'`, test whether the following character is `c`. -/
def countAfterNl (c : Char) : List Char → Nat
  | [] => 0
  | x :: xs =>
    (if x == '\n' then
      (match xs with
       | y :: _ => if y == c then 1 else 0
       | [] => 0)
     else 0) + countAfterNl c xs

/-- Total number of matches of `^c` in MULTILINE mode over `s`. -/
def countMultilineStart (c : Char) (s : List Char) : Nat :=
  (if startsWithChar c s then 1 else 0) + countAfterNl c s

/-- Number of split lines of `s` beginning with `c` — the specification-side
reading "count of lines beginning with `c`". -/
def linesStartingWith (c : Char) (s : List Char) : Nat :=
  (linesNl s).countP (startsWithChar c)

/-! ### Generic `re.findall` scanner

`re.findall` tries the pattern at each position from the left; on failure it
advances one character, on success it records the captures and resumes at
the end of the match (non-overlapping).  Every pattern of the script
consumes at least one character, so fuel `s.length` is exact. -/

def scanCaps {α : Type} (tryAt : List Char → Option (α × List Char)) :
    Nat → List Char → List α
  | 0, _ => []
  | _ + 1, [] => []
  | fuel + 1, x :: xs =>
    match tryAt (x :: xs) with
    | some (a, rest) => a :: scanCaps tryAt fuel rest
    | none => scanCaps tryAt fuel xs

/-- `re.findall(pattern, s, re.IGNORECASE)` for one of the script's
patterns, given its single-position matcher. -/
def findAll {α : Type} (tryAt : List Char → Option (α × List Char))
    (s : List Char) : List α :=
  scanCaps tryAt s.length s

/-! ### Environment-variable patterns (source lines 83-94)

All five are applied with `re.IGNORECASE`, so the `[A-Z_][A-Z0-9_]*` name
classes also accept lowercase ASCII letters. -/

/-- Greedy match of `([A-Z_][A-Z0-9_]*)` under IGNORECASE at the head of the
input; returns the captured name and the rest. -/
def takeName : List Char → Option (List Char × List Char)
  | [] => none
  | c :: cs =>
    if isNameStart c then
      some (c :: cs.takeWhile isNameChar, cs.dropWhile isNameChar)
    else none

/-- `process\.env\.([A-Z_][A-Z0-9_]*)` -/
def tryEnv1 (s : List Char) : Option (List Char × List Char) :=
  match tryLitCI "process.env.".data s with
  | none => none
  | some (_, r1) => takeName r1

/-- `os\.environ\[["\']([A-Z_][A-Z0-9_]*)["\']\]` -/
def tryEnv2 (s : List Char) : Option (List Char × List Char) :=
  match tryLitCI "os.environ[".data s with
  | none => none
  | some (_, r1) =>
    match r1 with
    | [] => none
    | q :: r2 =>
      if isQuote q then
        match takeName r2 with
        | none => none
        | some (cap, r3) =>
          match r3 with
          | q2 :: b :: r4 =>
            if isQuote q2 && b == ']' then some (cap, r4) else none
          | _ => none
      else none

/-- `os\.getenv\(["\']([A-Z_][A-Z0-9_]*)["\']` -/
def tryEnv3 (s : List Char) : Option (List Char × List Char) :=
  match tryLitCI "os.getenv(".data s with
  | none => none
  | some (_, r1) =>
    match r1 with
    | [] => none
    | q :: r2 =>
      if isQuote q then
        match takeName r2 with
        | none => none
        | some (cap, r3) =>
          match r3 with
          | q2 :: r4 => if isQuote q2 then some (cap, r4) else none
          | _ => none
      else none

/-- `\$\{([A-Z_][A-Z0-9_]*)\}` -/
def tryEnv4 (s : List Char) : Option (List Char × List Char) :=
  match s with
  | a :: b :: rest =>
    if a == '$' && b == lbrace then
      match takeName rest with
      | some (cap, c :: r2) => if c == rbrace then some (cap, r2) else none
      | _ => none
    else none
  | _ => none

/-- `\$([A-Z_][A-Z0-9_]*)` -/
def tryEnv5 (s : List Char) : Option (List Char × List Char) :=
  match s with
  | a :: rest => if a == '$' then takeName rest else none
  | _ => none

/-- All captures of the five env patterns over the whole diff, in pattern
order (each pattern is a separate `re.findall` over the full text). -/
def env_matches (d : List Char) : List (List Char) :=
  findAll tryEnv1 d ++ findAll tryEnv2 d ++ findAll tryEnv3 d ++
  findAll tryEnv4 d ++ findAll tryEnv5 d

/-! ### API / endpoint patterns (source lines 66-80) -/

/-- One attempt of the group `([a-zA-Z0-9.-]+\.[a-zA-Z]{2,})` inside `run`
(a maximal run of host characters), splitting at index `a`: requires
`run[a] = '.'` followed by at least two letters; the letter block is taken
greedily.  Returns the captured group and the number of characters of the
input it covers. -/
def hostTry (run : List Char) (a : Nat) : Option (List Char × Nat) :=
  match run.drop a with
  | x :: after =>
    if x == '.' then
      let ls := after.takeWhile Char.isAlpha
      if 2 ≤ ls.length then some (run.take a ++ x :: ls, a + 1 + ls.length)
      else none
    else none
  | [] => none

/-- Backtracking search: the regex engine first lets `[a-zA-Z0-9.-]+` take
as much as possible, then gives back characters one at a time, so the
largest viable split index wins.  `hostSearch run n` tries `a = n, …, 1`. -/
def hostSearch (run : List Char) : Nat → Option (List Char × Nat)
  | 0 => none
  | a + 1 =>
    match hostTry run (a + 1) with
    | some r => some r
    | none => hostSearch run a

/-- `https?://([a-zA-Z0-9.-]+\.[a-zA-Z]{2,})` under IGNORECASE.
The optional `s` is deterministic: if the next character is `s`/`S`, taking
it is the only way `://` can still match. -/
def tryApi1 (s : List Char) : Option (String × List Char) :=
  match tryLitCI "http".data s with
  | none => none
  | some (_, r1) =>
    let r2 := match r1 with
              | c :: cs => if c == 's' || c == 'S' then cs else r1
              | [] => r1
    match r2 with
    | ':' :: '/' :: '/' :: r3 =>
      let run := r3.takeWhile isHostChar
      match hostSearch run (run.length - 1) with
      | some (cap, used) => some (String.mk cap, r3.drop used)
      | none => none
    | _ => none

/-- The argument part `["\']([^"\']+)["\']`: an opening quote, a non-empty
greedy run of non-quote characters, a closing quote. -/
def tryQuotedArg (s : List Char) : Option (List Char × List Char) :=
  match s with
  | q :: rest =>
    if isQuote q then
      let body := rest.takeWhile (fun c => !(isQuote c))
      if body.isEmpty then none
      else
        match rest.drop body.length with
        | q2 :: r2 => if isQuote q2 then some (body, r2) else none
        | [] => none
    else none
  | [] => none

/-- `fetch\(["\']([^"\']+)["\']` under IGNORECASE. -/
def tryApi2 (s : List Char) : Option (String × List Char) :=
  match tryLitCI "fetch(".data s with
  | none => none
  | some (_, r1) =>
    match tryQuotedArg r1 with
    | some (body, r2) => some (String.mk body, r2)
    | none => none

/-- The alternation `(get|post|put|delete)` (alternatives are mutually
exclusive at any one position). Returns the matched method and the rest. -/
def tryMethod (s : List Char) : Option (List Char × List Char) :=
  match tryLitCI "get".data s with
  | some r => some r
  | none =>
    match tryLitCI "post".data s with
    | some r => some r
    | none =>
      match tryLitCI "put".data s with
      | some r => some r
      | none => tryLitCI "delete".data s

/-- `LIB\.(get|post|put|delete)\(["\']([^"\']+)["\']` — the shared shape of
the axios and requests patterns.  Captures the pair (method, url): two
groups, of which the url is the last. -/
def tryCallIdiom (lib : String) (s : List Char) :
    Option ((String × String) × List Char) :=
  match tryLitCI lib.data s with
  | none => none
  | some (_, r1) =>
    match tryMethod r1 with
    | none => none
    | some (m, r2) =>
      match r2 with
      | '(' :: r3 =>
        match tryQuotedArg r3 with
        | some (body, r4) => some ((String.mk m, String.mk body), r4)
        | none => none
      | _ => none

/-- `axios\.(get|post|put|delete)\(["\']([^"\']+)["\']` -/
def tryApi3 : List Char → Option ((String × String) × List Char) :=
  tryCallIdiom "axios."

/-- `requests\.(get|post|put|delete)\(["\']([^"\']+)["\']` -/
def tryApi4 : List Char → Option ((String × String) × List Char) :=
  tryCallIdiom "requests."

/-! ### Set accumulation

Python accumulates matches into a `set` and finally converts it to a list;
the iteration order of a Python set is unspecified, so the model fixes
first-insertion order and the theorems only use membership and
duplicate-freeness. -/

/-- Add a string to the accumulated "set" list unless already present. -/
def dedupInsert (acc : List String) (x : String) : List String :=
  if x ∈ acc then acc else acc ++ [x]

/-- Matches of the single-group patterns 1 and 2 (strings). -/
def api_matches12 (d : List Char) : List String :=
  findAll tryApi1 d ++ findAll tryApi2 d

/-- Matches of the two-group patterns 3 and 4 (tuples `(method, url)`). -/
def api_matches34 (d : List Char) : List (String × String) :=
  findAll tryApi3 d ++ findAll tryApi4 d

/-- The `apis_used` set of `analyze_diff`.  For tuple matches the source
does `match[1] if len(match) > 1 else match[0]`: with the two-group
patterns this selects the second — i.e. the last — captured group, the url. -/
def apis_used_of (diff : String) : List String :=
  (api_matches34 diff.data).foldl (fun acc p => dedupInsert acc p.2)
    ((api_matches12 diff.data).foldl (fun acc m => dedupInsert acc m) [])

/-- The `env_vars` set of `analyze_diff` (`env_vars.update(matches)`). -/
def env_vars_of (diff : String) : List String :=
  (env_matches diff.data).foldl (fun acc cap => dedupInsert acc (String.mk cap)) []

/-! ### `analyze_diff` (source lines 47-103) -/

/-- The dictionary returned by `analyze_diff`.  `additions`/`deletions` are
`Option Nat` because the empty-input early return (line 50) omits those two
keys while the general return (lines 96-103) includes them. -/
structure DiffAnalysis where
  total_changes : Nat
  additions : Option Nat
  deletions : Option Nat
  file_types : List (String × Nat)
  apis_used : List String
  env_vars : List String

/-- `file_types[ext] = file_types.get(ext, 0) + 1` on an insertion-ordered
association list (Python dicts preserve insertion order). -/
def bump (ft : List (String × Nat)) (k : String) : List (String × Nat) :=
  if ft.any (fun p => p.1 == k) then
    ft.map (fun p => if p.1 == k then (p.1, p.2 + 1) else p)
  else ft ++ [(k, 1)]

/-- Per-line body of the file-type loop (source lines 58-63):
`line.split(' b/')[-1]`, then the substring after the last `'.'` if the
filename contains a dot. -/
def file_types_step (ft : List (String × Nat)) (line : List Char) :
    List (String × Nat) :=
  if isPrefixOfCh "diff --git".data line then
    let filename := lastD (splitOnL " b/".data line)
    if filename.contains '.' then
      bump ft (String.mk (lastD (splitOnL ['.'] filename)))
    else ft
  else ft

/-- `analyze_diff` (source lines 47-103).  `if not diff_content` is the
empty-string test; the additions/deletions counts embed
`len(re.findall(r'^\+', …, re.MULTILINE))` and its `-` twin. -/
def analyze_diff (diff_content : String) : DiffAnalysis :=
  if diff_content = "" then
    ⟨0, none, none, [], [], []⟩
  else
    let additions := countMultilineStart '+' diff_content.data
    let deletions := countMultilineStart '-' diff_content.data
    ⟨additions + deletions, some additions, some deletions,
      (linesNl diff_content.data).foldl file_types_step [],
      apis_used_of diff_content,
      env_vars_of diff_content⟩

/-! ### PR data model (fields of the GitHub payloads that the script reads) -/

structure PRInfo where
  number : Nat
  title : String
  body : Option String
  user_login : String
  additions : Nat
  deletions : Nat
  head_sha : String

structure ChangedFile where
  filename : String
  status : String

/-! ### Prompt construction (`analyze_with_llm`, source lines 112-157) -/

/-- Python truthiness fallback `x or default` for an optional string
(`None` and `""` are both falsy). -/
def pyOr (b : Option String) (dflt : String) : String :=
  match b with
  | some s => if s == "" then dflt else s
  | none => dflt

/-- `changed_files[:10]` — "Limit to first 10" (source line 124). -/
def filesShown (changed_files : List ChangedFile) : List ChangedFile :=
  changed_files.take 10

/-- `diff_analysis['apis_used'][:5]` (source line 131). -/
def apisShown (apis : List String) : List String := apis.take 5

/-- `diff_analysis['env_vars'][:5]` (source line 132). -/
def envsShown (envs : List String) : List String := envs.take 5

/-- The `**Changed Files:**` bullet lines (source line 125). -/
def filesSection (files : List ChangedFile) : String :=
  String.join (files.map (fun f => "- " ++ f.filename ++ " (" ++ f.status ++ ")\n"))

/-- First f-string of the context (source lines 112-122). -/
def headerPart (pr : PRInfo) (changed_files : List ChangedFile) : String :=
  "\n**Pull Request Information:**\n- Title: " ++ pr.title ++
  "\n- Description: " ++ pyOr pr.body "No description" ++
  "\n- Author: " ++ pr.user_login ++
  "\n- Files changed: " ++ toString changed_files.length ++
  "\n- Additions: +" ++ toString pr.additions ++
  "\n- Deletions: -" ++ toString pr.deletions ++
  "\n\n**Changed Files:**\n"

/-- `**Analysis Summary:**` block (source lines 127-132). -/
def analysisSummary (da : DiffAnalysis) : String :=
  "\n**Analysis Summary:**\n- Total changes: " ++ toString da.total_changes ++
  "\n- File types: " ++
    String.intercalate ", " (da.file_types.map (fun p => p.1 ++ ": " ++ toString p.2)) ++
  "\n- APIs used: " ++ String.intercalate ", " (apisShown da.apis_used) ++
  "\n- Environment variables: " ++
    String.intercalate ", " (envsShown da.env_vars) ++ "\n"

/-- The five key/budget lines of the demanded JSON object and the fixed
instruction text around them (source lines 134-157).  Braces of the JSON
template and apostrophes are written via code-point escapes. -/
def keySummary : String :=
  "\"summary\": \"Brief summary (MAX 1000 chars - be concise)\""

def keyRisk : String :=
  "\"risk_assessment\": \"Risk level (LOW/MEDIUM/HIGH/CRITICAL) with explanation and main risks (MAX 800 chars - be concise)\""

def keyApi : String :=
  "\"api_impact\": \"API changes analysis (MAX 500 chars - be concise)\""

def keyDep : String :=
  "\"dependency_impact\": \"Dependency analysis (MAX 300 chars - be concise)\""

def keyQuality : String :=
  "\"code_quality\": \"Quality assessment (MAX 200 chars - be concise)\""

def instrP0 : String :=
  "\n**IMPORTANT: Respond ONLY with valid JSON. No additional text before or after.**\n\n\x7b\n  "

def instrSep : String := ",\n  "

def instrP5 : String :=
  "\n\x7d\n\n**CRITICAL ANALYSIS REQUIREMENTS:**\n- Analyze ONLY the actual code changes shown in the diff\n- Use exact parameter names, function names, and API calls from the code\n- Don\x27t invent or guess details - base analysis on real code\n- Focus on concrete changes, not hypothetical scenarios\n- Be factual and precise\n\n**JSON Requirements:**\n- Use double quotes for all strings\n- No trailing commas\n- Escape quotes in strings with \"\n- Character limits are MAXIMUM - write concisely, don\x27t pad with filler words\n- Ensure valid JSON syntax\n"

/-- The fixed instruction block appended to every prompt
(source lines 134-157). -/
def instructionBlock : String :=
  instrP0 ++ keySummary ++ instrSep ++ keyRisk ++ instrSep ++ keyApi ++
  instrSep ++ keyDep ++ instrSep ++ keyQuality ++ instrP5

/-- Everything of the prompt before the fixed instruction block. -/
def contextLead (pr : PRInfo) (files : List ChangedFile) (da : DiffAnalysis) :
    String :=
  headerPart pr files ++ filesSection (filesShown files) ++ analysisSummary da

/-- The full `context` string sent to the model (source lines 112-157). -/
def build_context (pr : PRInfo) (files : List ChangedFile) (da : DiffAnalysis) :
    String :=
  contextLead pr files da ++ instructionBlock

/-! ### Substring occurrence (for claims about the prompt's content) -/

/-- Boolean substring test: `needle` occurs contiguously in the haystack. -/
def occursIn (needle : List Char) : List Char → Bool
  | [] => isPrefixOfCh needle []
  | x :: xs => isPrefixOfCh needle (x :: xs) || occursIn needle xs

/-! ### LLM response post-processing (`analyze_with_llm`, lines 159-212) -/

/-- Python whitespace for `str.strip()`. -/
def pyIsSpace (c : Char) : Bool :=
  c == ' ' || c == '\t' || c == '\n' || c == '\r' || c == '\x0b' || c == '\x0c'

/-- `str.strip()`. -/
def pyStrip (l : List Char) : List Char :=
  ((l.dropWhile pyIsSpace).reverse.dropWhile pyIsSpace).reverse

/-- Markdown-fence cleanup of the collected stream text (lines 178-182):
drop a leading ` ```json `, then a trailing ` ``` `, then strip. -/
def clean_content (content : String) : String :=
  let d0 := content.data
  let d1 := if isPrefixOfCh "```json".data d0 then d0.drop 7 else d0
  let d2 := if isPrefixOfCh "```".data.reverse d1.reverse then
              d1.take (d1.length - 3)
            else d1
  String.mk (pyStrip d2)

/-- The degraded record built when `json.loads` raises (lines 197-203). -/
def parse_failure_record (cleaned : String) (err : String) :
    List (String × String) :=
  [("summary", cleaned),
   ("risk_assessment", "Could not parse LLM response. Error: " ++ err),
   ("api_impact", "Raw response shown in summary above"),
   ("dependency_impact", "Raw response shown in summary above"),
   ("code_quality", "Raw response shown in summary above")]

/-- The fully degraded record built when the API call raises (lines 206-212). -/
def transport_failure_record (err : String) : List (String × String) :=
  [("summary", "Error analyzing with Claude: " ++ err),
   ("risk_assessment", "Analysis failed"),
   ("api_impact", "Analysis failed"),
   ("dependency_impact", "Analysis failed"),
   ("code_quality", "Analysis failed")]

/-- Outcome of the streamed Anthropic call, as seen by the script:
either the stream completes and yields content-delta fragments, or some
exception is raised inside the `try` (network/API failure). -/
inductive LLMOutcome where
  | stream (fragments : List String)
  | exn (msg : String)

/-- `analyze_with_llm` (source lines 106-212).  The prompt is built
exactly as in the source; the HTTP/stream effect is the `outcome`
parameter and `json.loads` is the `jsonLoads` parameter (error value =
`str(e)` of the `JSONDecodeError`).  The function is total: every outcome
yields a record, never an exception to the caller. -/
def analyze_with_llm (pr_info : PRInfo) (changed_files : List ChangedFile)
    (diff_analysis : DiffAnalysis) (outcome : LLMOutcome)
    (jsonLoads : String → Except String (List (String × String))) :
    List (String × String) :=
  let _context := build_context pr_info changed_files diff_analysis
  match outcome with
  | LLMOutcome.exn e => transport_failure_record e
  | LLMOutcome.stream fragments =>
    let content := String.join fragments
    let cleaned := clean_content content
    match jsonLoads cleaned with
    | Except.ok parsed => parsed
    | Except.error e => parse_failure_record cleaned e

/-! ### Comment rendering (`generate_comment`, source lines 234-264) -/

/-- Python `dict.get(key, default)` on the association-list model. -/
def dictGet (analysis : List (String × String)) (key dflt : String) : String :=
  match analysis.find? (fun p => p.1 == key) with
  | some p => p.2
  | none => dflt

/-- `generate_comment` — the timestamp (`datetime.utcnow().strftime`) is a
parameter.  The unused `diff_analysis` argument of the source is omitted. -/
def generate_comment (pr : PRInfo) (analysis : List (String × String))
    (ts : String) : String :=
  "## 🤖 AI Pull Request Review\n\n**PR:** #" ++ toString pr.number ++ " - " ++
  pr.title ++ "  \n**Author:** @" ++ pr.user_login ++ "  \n**Generated:** " ++
  ts ++ "\n\n---\n\n### 📋 Summary\n" ++
  dictGet analysis "summary" "No summary available" ++
  "\n\n### ⚠️ Risk Assessment\n" ++
  dictGet analysis "risk_assessment" "No risk assessment available" ++
  "\n\n### 🔌 API Impact Analysis\n" ++
  dictGet analysis "api_impact" "No API changes detected" ++
  "\n\n### 📦 Dependency Impact\n" ++
  dictGet analysis "dependency_impact" "No dependency issues detected" ++
  "\n\n### 🧪 Suggested Tests & Checklist\n" ++
  dictGet analysis "suggested_tests" "No specific test suggestions" ++
  "\n\n### 🔧 Code Quality Assessment\n" ++
  dictGet analysis "code_quality" "No specific quality assessment" ++ "\n"

/-! ### Orchestrator (`main`, source lines 267-337) -/

/-- CLI arguments. -/
structure MainArgs where
  pr_number : Nat
  repo_owner : String
  repo_name : String

/-- The world as observed by one run: environment variables, the outcome of
each GitHub fetch (`Except.error` = raised `requests` exception),
whether the output file already exists, the LLM call outcome, `json.loads`
and the formatted UTC timestamp. -/
structure WorldEnv where
  github_token : Option String
  anthropic_api_key : Option String
  pr_fetch : Except String PRInfo
  output_exists : Bool
  files_fetch : Except String (List ChangedFile)
  diff_fetch : Except String String
  llm_outcome : LLMOutcome
  jsonLoads : String → Except String (List (String × String))
  timestamp : String

/-- Python truthiness of `os.getenv(...)`: `None` or `""`. -/
def pyFalsy : Option String → Bool
  | none => true
  | some s => s == ""

/-- `os.path.join('output', f'review_comment_pr_{n}_{sha[:8]}.md')`
(source lines 299-300). -/
def output_file_path (pr_number : Nat) (head_sha : String) : String :=
  "output/review_comment_pr_" ++ toString pr_number ++ "_" ++
  String.mk (head_sha.data.take 8) ++ ".md"

/-- Observable result of a run: the exit code, which external calls were
performed, and the file written (path, content), if any. -/
structure RunResult where
  exitCode : Nat
  fetched_files : Bool
  fetched_diff : Bool
  llm_called : Bool
  written : Option (String × String)

/-- `main` (source lines 267-337): credential checks, PR fetch, idempotence
check on the output path, fetches, `analyze_diff`, `analyze_with_llm`,
`generate_comment`, file write.  A raised fetch exception is caught by the
top-level handler and becomes exit code 1. -/
def main (args : MainArgs) (env : WorldEnv) : RunResult :=
  if pyFalsy env.github_token then ⟨1, false, false, false, none⟩
  else if pyFalsy env.anthropic_api_key then ⟨1, false, false, false, none⟩
  else
    match env.pr_fetch with
    | Except.error _ => ⟨1, false, false, false, none⟩
    | Except.ok pr_info =>
      let output_file := output_file_path args.pr_number pr_info.head_sha
      if env.output_exists then ⟨0, false, false, false, none⟩
      else
        match env.files_fetch with
        | Except.error _ => ⟨1, true, false, false, none⟩
        | Except.ok changed_files =>
          match env.diff_fetch with
          | Except.error _ => ⟨1, true, true, false, none⟩
          | Except.ok diff_content =>
            let diff_analysis := analyze_diff diff_content
            let analysis := analyze_with_llm pr_info changed_files diff_analysis
              env.llm_outcome env.jsonLoads
            let comment := generate_comment pr_info analysis env.timestamp
            ⟨0, true, true, true, some (output_file, comment)⟩

/-! ### Specification-side predicates and sample data -/

/-- Shape of every name the env matchers can capture: an ASCII letter or
underscore followed by ASCII alphanumerics/underscores (`[A-Za-z_][A-Za-z0-9_]*`,
the IGNORECASE reading of the source's classes). -/
def envNameShape (l : List Char) : Bool :=
  match l with
  | [] => false
  | c :: cs => isNameStart c && cs.all isNameChar

/-- String form of `envNameShape`. -/
def ciEnvNamePattern (s : String) : Bool := envNameShape s.data

/-- The spec's literal pattern `[A-Z_][A-Z0-9_]*`: uppercase-only names,
written from the specification's words for comparison with the code. -/
def specUpperStart (c : Char) : Bool := ('A' ≤ c && c ≤ 'Z') || c == '_'

def specUpperChar (c : Char) : Bool :=
  ('A' ≤ c && c ≤ 'Z') || ('0' ≤ c && c ≤ '9') || c == '_'

def specEnvNamePattern (s : String) : Bool :=
  match s.data with
  | [] => false
  | c :: cs => specUpperStart c && cs.all specUpperChar

/-- Sample PR metadata used by witnesses. -/
def prSample : PRInfo := ⟨42, "Add feature", some "desc", "octocat", 10, 2, "abcdef1234567890"⟩

/-- Sample changed file used by witnesses. -/
def fileSample : ChangedFile := ⟨"src/app.ts", "modified"⟩

/-- Diff with exactly 3 lines beginning `+` (one of them the `+++` header)
and 1 line beginning `-` (the `---` header). -/
def c6ex : String := "--- a/f.txt\n+++ b/f.txt\n+new line\n+another"

/-- Environment used by the C5 witness: credentials present, fetches
succeed, no existing output file, the LLM call raises. -/
def envC5 : WorldEnv :=
  ⟨some "tok", some "key", Except.ok prSample, false, Except.ok [fileSample],
   Except.ok "+x", LLMOutcome.exn "boom",
   fun _ => Except.error "unused", "2025-01-01 00:00 UTC"⟩

/-- Environment used by the C9 witness: credentials present, PR fetch
succeeds, the output file for this PR/commit already exists. -/
def envC9 : WorldEnv :=
  ⟨some "tok", some "key", Except.ok prSample, true, Except.ok [fileSample],
   Except.ok "+x", LLMOutcome.stream ["irrelevant"],
   fun _ => Except.error "unused", "2025-01-01 00:00 UTC"⟩

/-! ## Lemmas -/

theorem all_takeWhile (p : Char → Bool) (l : List Char) :
    (l.takeWhile p).all p = true := by
  induction l with
  | nil => rfl
  | cons x xs ih =>
    by_cases h : p x
    · simp [List.takeWhile_cons, h, ih]
    · simp [List.takeWhile_cons, h]

theorem takeName_shape (s cap rest : List Char)
    (h : takeName s = some (cap, rest)) : envNameShape cap = true := by
  cases s with
  | nil => simp [takeName] at h
  | cons c cs =>
    unfold takeName at h
    by_cases hc : isNameStart c
    · simp [hc] at h
      obtain ⟨h1, _⟩ := h
      subst h1
      simp [envNameShape, hc, all_takeWhile]
    · simp [hc] at h

theorem tryEnv1_shape (s cap rest : List Char)
    (h : tryEnv1 s = some (cap, rest)) : envNameShape cap = true := by
  unfold tryEnv1 at h
  cases hm : tryLitCI "process.env.".data s with
  | none => rw [hm] at h; simp at h
  | some p =>
    rw [hm] at h
    exact takeName_shape p.2 cap rest h

theorem tryEnv2_shape (s cap rest : List Char)
    (h : tryEnv2 s = some (cap, rest)) : envNameShape cap = true := by
  unfold tryEnv2 at h
  split at h
  · simp at h
  · rename_i m r1 heq
    cases r1 with
    | nil => simp at h
    | cons q r2 =>
      simp only at h
      split at h
      · split at h
        · simp at h
        · rename_i cap2 r3 htn
          cases r3 with
          | nil => simp at h
          | cons q2 r4 =>
            cases r4 with
            | nil => simp at h
            | cons b r5 =>
              simp only at h
              split at h
              · simp at h
                obtain ⟨h1, _⟩ := h
                subst h1
                exact takeName_shape _ _ _ htn
              · simp at h
      · simp at h

theorem tryEnv3_shape (s cap rest : List Char)
    (h : tryEnv3 s = some (cap, rest)) : envNameShape cap = true := by
  unfold tryEnv3 at h
  split at h
  · simp at h
  · rename_i m r1 heq
    cases r1 with
    | nil => simp at h
    | cons q r2 =>
      simp only at h
      split at h
      · split at h
        · simp at h
        · rename_i cap2 r3 htn
          cases r3 with
          | nil => simp at h
          | cons q2 r4 =>
            simp only at h
            split at h
            · simp at h
              obtain ⟨h1, _⟩ := h
              subst h1
              exact takeName_shape _ _ _ htn
            · simp at h
      · simp at h

theorem tryEnv4_shape (s cap rest : List Char)
    (h : tryEnv4 s = some (cap, rest)) : envNameShape cap = true := by
  unfold tryEnv4 at h
  cases s with
  | nil => simp at h
  | cons a r0 =>
    cases r0 with
    | nil => simp at h
    | cons b r1 =>
      simp only at h
      split at h
      · split at h
        · rename_i cap2 c r2 htn
          split at h
          · simp at h
            obtain ⟨h1, _⟩ := h
            subst h1
            exact takeName_shape _ _ _ htn
          · simp at h
        · simp at h
      · simp at h

theorem tryEnv5_shape (s cap rest : List Char)
    (h : tryEnv5 s = some (cap, rest)) : envNameShape cap = true := by
  unfold tryEnv5 at h
  cases s with
  | nil => simp at h
  | cons a r0 =>
    simp only at h
    split at h
    · exact takeName_shape _ _ _ h
    · simp at h

/-- Any capture produced by the generic `findall` scanner satisfies any
property that the single-position matcher guarantees of its captures. -/
theorem scanCaps_sound {α : Type} (tryAt : List Char → Option (α × List Char))
    (P : α → Prop) (hP : ∀ s a r, tryAt s = some (a, r) → P a) :
    ∀ (fuel : Nat) (s : List Char) (a : α), a ∈ scanCaps tryAt fuel s → P a := by
  intro fuel
  induction fuel with
  | zero => intro s a ha; simp [scanCaps] at ha
  | succ n ih =>
    intro s a ha
    cases s with
    | nil => simp [scanCaps] at ha
    | cons x xs =>
      rw [scanCaps] at ha
      cases htry : tryAt (x :: xs) with
      | none =>
        rw [htry] at ha
        exact ih xs a ha
      | some p =>
        rw [htry] at ha
        obtain ⟨b, rest⟩ := p
        rcases List.mem_cons.mp ha with h1 | h2
        · subst h1; exact hP _ _ _ htry
        · exact ih rest a h2

theorem mem_dedupInsert (acc : List String) (x y : String)
    (h : y ∈ dedupInsert acc x) : y ∈ acc ∨ y = x := by
  unfold dedupInsert at h
  split at h
  · exact Or.inl h
  · rcases List.mem_append.mp h with h1 | h2
    · exact Or.inl h1
    · simp at h2; exact Or.inr h2

theorem nodup_dedupInsert (acc : List String) (x : String)
    (h : acc.Nodup) : (dedupInsert acc x).Nodup := by
  unfold dedupInsert
  split
  · exact h
  · rename_i hx
    refine List.Nodup.append h (List.nodup_singleton x) ?_
    intro a ha hb
    simp at hb
    subst hb
    exact hx ha

/-- Elements of the set-accumulation fold come from the initial
accumulator or are `f` of a scanned match. -/
theorem mem_foldl_dedupInsert {α : Type} (f : α → String) :
    ∀ (l : List α) (acc : List String) (y : String),
      y ∈ l.foldl (fun a x => dedupInsert a (f x)) acc →
      y ∈ acc ∨ ∃ x, x ∈ l ∧ y = f x := by
  intro l
  induction l with
  | nil => intro acc y h; simp at h; exact Or.inl h
  | cons x xs ih =>
    intro acc y h
    rw [List.foldl_cons] at h
    rcases ih _ y h with h1 | h2
    · rcases mem_dedupInsert _ _ _ h1 with h3 | h4
      · exact Or.inl h3
      · exact Or.inr ⟨x, List.mem_cons_self x xs, h4⟩
    · obtain ⟨z, hz, hy⟩ := h2
      exact Or.inr ⟨z, List.mem_cons_of_mem x hz, hy⟩

/-- The set-accumulation fold never produces duplicates. -/
theorem nodup_foldl_dedupInsert {α : Type} (f : α → String) :
    ∀ (l : List α) (acc : List String), acc.Nodup →
      (l.foldl (fun a x => dedupInsert a (f x)) acc).Nodup := by
  intro l
  induction l with
  | nil => intro acc h; simpa using h
  | cons x xs ih =>
    intro acc h
    rw [List.foldl_cons]
    exact ih _ (nodup_dedupInsert _ _ h)

theorem linesNl_ne_nil (s : List Char) : linesNl s ≠ [] := by
  cases s with
  | nil => simp [linesNl]
  | cons x xs =>
    unfold linesNl
    split
    · simp
    · split <;> simp

/-- Splitting the first line off the `countP` of line-initial characters:
the head-of-string check plus the count over the remaining lines
(for `c ≠ '\n'`). -/
theorem countP_linesNl_head (c : Char) (hc : c ≠ '\n') (s : List Char) :
    (linesNl s).countP (startsWithChar c) =
      (if startsWithChar c s then 1 else 0) +
        ((linesNl s).tail).countP (startsWithChar c) := by
  cases s with
  | nil => simp [linesNl, startsWithChar, List.countP_cons]
  | cons x xs =>
    by_cases hx : x == '\n'
    · have hxc : (x == c) = false := by
        have : x = '\n' := by simpa using hx
        subst this
        simpa using fun h => hc h.symm
      simp [linesNl, hx, startsWithChar, hxc, List.countP_cons]
    · obtain ⟨l, ls, hls⟩ := List.exists_cons_of_ne_nil (linesNl_ne_nil xs)
      simp [linesNl, hx, hls, startsWithChar, List.countP_cons]
      cases hxon : x == c <;> simp [Nat.add_comm]

/-- The after-newline matches of `^c` are exactly the `c`-initial lines
among all lines but the first (for `c ≠ '\n'`). -/
theorem countAfterNl_eq (c : Char) (hc : c ≠ '\n') :
    ∀ s : List Char,
      countAfterNl c s = ((linesNl s).tail).countP (startsWithChar c) := by
  intro s
  induction s with
  | nil => simp [countAfterNl, linesNl]
  | cons x xs ih =>
    by_cases hx : x == '\n'
    · have hx' : x = '\n' := by simpa using hx
      subst hx'
      rw [countAfterNl.eq_def]
      simp only [linesNl, beq_self_eq_true, if_true, List.tail_cons]
      rw [ih, countP_linesNl_head c hc xs]
      cases xs with
      | nil => simp [linesNl, startsWithChar]
      | cons y ys => simp [startsWithChar]
    · obtain ⟨l, ls, hls⟩ := List.exists_cons_of_ne_nil (linesNl_ne_nil xs)
      rw [countAfterNl.eq_def]
      simp only []
      rw [ih]
      simp [linesNl, hx, hls]

/-- `len(re.findall(r'^c', s, re.MULTILINE))` = number of split lines of
`s` beginning with `c`, for any `c ≠ '\n'`. -/
theorem countMultilineStart_eq_linesStartingWith (c : Char) (hc : c ≠ '\n')
    (s : List Char) : countMultilineStart c s = linesStartingWith c s := by
  rw [countMultilineStart, countAfterNl_eq c hc, linesStartingWith,
    countP_linesNl_head c hc]

/-- If the needle occurs in a haystack it occurs after prepending text. -/
theorem occursIn_append_left (needle pre hay : List Char)
    (h : occursIn needle hay = true) : occursIn needle (pre ++ hay) = true := by
  induction pre with
  | nil => simpa using h
  | cons c cs ih =>
    rw [List.cons_append, occursIn, Bool.or_eq_true]
    exact Or.inr ih

theorem isPrefixOfCh_self_append (k r : List Char) :
    isPrefixOfCh k (k ++ r) = true := by
  induction k with
  | nil => rfl
  | cons c cs ih => simp [isPrefixOfCh, ih]

/-- The needle occurs at the front of `needle ++ rest`. -/
theorem occursIn_here (k r : List Char) : occursIn k (k ++ r) = true := by
  cases k with
  | nil => cases r <;> simp [occursIn, isPrefixOfCh]
  | cons c cs =>
    rw [List.cons_append, occursIn, Bool.or_eq_true]
    exact Or.inl (isPrefixOfCh_self_append (c :: cs) r)

theorem dataAppend (a b : String) : (a ++ b).data = a.data ++ b.data := rfl

/-- Right-nested decomposition of the instruction block's characters. -/
theorem instructionBlock_data :
    instructionBlock.data =
      instrP0.data ++ (keySummary.data ++ (instrSep.data ++ (keyRisk.data ++
        (instrSep.data ++ (keyApi.data ++ (instrSep.data ++ (keyDep.data ++
          (instrSep.data ++ (keyQuality.data ++ instrP5.data))))))))) := by
  simp [instructionBlock, dataAppend, List.append_assoc]

/-! ## Claims -/

/-- Claim C1, counterexample.  The claim asserts that `analyze("")` has all
three count fields equal to `0` "with the same record shape as for
non-empty input"; in the code the empty-input early return omits the
`additions`/`deletions` keys that every non-empty result carries, so the
additions count of the empty result does not exist (it is not `0`). -/
theorem c1_counterexample :
    (analyze_diff "").additions = none ∧ (analyze_diff "+x").additions ≠ none := by
  decide

/-- Claim C1, amended.  For the empty string, `analyze_diff` returns
total change count `0` and empty file-type map, endpoint set and env-var
set, but the `additions` and `deletions` keys are absent (the record shape
differs from the non-empty case, which carries six keys). -/
theorem c1_amended : analyze_diff "" = ⟨0, none, none, [], [], []⟩ := rfl

/-- Claim C2, counterexample.  The claim asserts the prompt demands a JSON
object with six fixed keys including `suggested_tests`; the prompt built by
the code never mentions `suggested_tests` at all (shown here on a concrete
prompt instance). -/
theorem c2_counterexample :
    occursIn "suggested_tests".data
      (build_context prSample [fileSample] (analyze_diff "")).data = false := by
  decide

/-- Claim C2, amended.  Every prompt built for the LLM contains an
instruction block demanding a JSON object with exactly five fixed keys —
summary, risk_assessment, api_impact, dependency_impact, code_quality —
each with an explicit maximum character budget; a `suggested_tests` key is
not requested (the fixed instruction block does not contain it). -/
theorem c2_amended (pr : PRInfo) (files : List ChangedFile) (da : DiffAnalysis) :
    occursIn keySummary.data (build_context pr files da).data = true ∧
    occursIn keyRisk.data (build_context pr files da).data = true ∧
    occursIn keyApi.data (build_context pr files da).data = true ∧
    occursIn keyDep.data (build_context pr files da).data = true ∧
    occursIn keyQuality.data (build_context pr files da).data = true ∧
    occursIn "suggested_tests".data instructionBlock.data = false := by
  refine ⟨?_, ?_, ?_, ?_, ?_, by decide⟩ <;>
  · rw [build_context, dataAppend]
    apply occursIn_append_left
    rw [instructionBlock_data]
    repeat first
      | exact occursIn_here _ _
      | apply occursIn_append_left

/-- Claim C3, counterexample.  The claim asserts every collected env-var
name matches the uppercase-only pattern `[A-Z_][A-Z0-9_]*`; but the source
applies its patterns with `re.IGNORECASE`, so the input `$foo` yields the
lowercase name `foo`, which does not match that pattern. -/
theorem c3_counterexample :
    "foo" ∈ (analyze_diff "$foo").env_vars ∧
    specEnvNamePattern "foo" = false := by
  decide

/-- Claim C3, amended.  Every name in the env-var set produced by
`analyze_diff` matches `[A-Za-z_][A-Za-z0-9_]*` (the patterns are applied
case-insensitively, so lowercase ASCII letters are accepted as well). -/
theorem c3_amended (d v : String) (hv : v ∈ (analyze_diff d).env_vars) :
    ciEnvNamePattern v = true := by
  by_cases hd : d = ""
  · simp [analyze_diff, hd] at hv
  · have hv' : v ∈ env_vars_of d := by
      simpa [analyze_diff, hd] using hv
    unfold env_vars_of at hv'
    rcases mem_foldl_dedupInsert String.mk _ _ _ hv' with h0 | ⟨cap, hcap, rfl⟩
    · simp at h0
    · have hshape : envNameShape cap = true := by
        unfold env_matches at hcap
        rcases List.mem_append.mp hcap with h | h5
        · rcases List.mem_append.mp h with h' | h4
          · rcases List.mem_append.mp h' with h'' | h3
            · rcases List.mem_append.mp h'' with h1 | h2
              · exact scanCaps_sound _ _ tryEnv1_shape _ _ _ h1
              · exact scanCaps_sound _ _ tryEnv2_shape _ _ _ h2
            · exact scanCaps_sound _ _ tryEnv3_shape _ _ _ h3
          · exact scanCaps_sound _ _ tryEnv4_shape _ _ _ h4
        · exact scanCaps_sound _ _ tryEnv5_shape _ _ _ h5
      simpa [ciEnvNamePattern] using hshape

/-- Claim C3, witness: the amended theorem applied at the concrete input
`$foo` and name `foo`. -/
theorem c3_witness :
    ("foo" ∈ (analyze_diff "$foo").env_vars) ∧ ciEnvNamePattern "foo" = true :=
  ⟨by decide, c3_amended "$foo" "foo" (by decide)⟩

/-- Claim C4.  When strict JSON parsing of the concatenated, fence-stripped,
trimmed stream text fails, `analyze_with_llm` still returns a record (does
not fail the run); its `summary` is the full cleaned text verbatim, its
`risk_assessment` is the fixed message carrying the parse error
description, and the remaining fields are the fixed pointer back to the
summary. -/
theorem c4_parse_failure (pr : PRInfo) (files : List ChangedFile)
    (da : DiffAnalysis) (fragments : List String) (e : String)
    (jsonLoads : String → Except String (List (String × String)))
    (h : jsonLoads (clean_content (String.join fragments)) = Except.error e) :
    analyze_with_llm pr files da (LLMOutcome.stream fragments) jsonLoads =
      [("summary", clean_content (String.join fragments)),
       ("risk_assessment", "Could not parse LLM response. Error: " ++ e),
       ("api_impact", "Raw response shown in summary above"),
       ("dependency_impact", "Raw response shown in summary above"),
       ("code_quality", "Raw response shown in summary above")] := by
  simp [analyze_with_llm, h, parse_failure_record]

/-- Claim C4, witness: a malformed fenced stream with a failing parser. -/
theorem c4_witness :
    analyze_with_llm prSample [fileSample] (analyze_diff "")
        (LLMOutcome.stream ["```json\n", "not json", "```"])
        (fun _ => Except.error "Expecting value") =
      [("summary", clean_content (String.join ["```json\n", "not json", "```"])),
       ("risk_assessment", "Could not parse LLM response. Error: Expecting value"),
       ("api_impact", "Raw response shown in summary above"),
       ("dependency_impact", "Raw response shown in summary above"),
       ("code_quality", "Raw response shown in summary above")] :=
  c4_parse_failure prSample [fileSample] (analyze_diff "")
    ["```json\n", "not json", "```"] "Expecting value"
    (fun _ => Except.error "Expecting value") rfl

/-- Claim C5.  On a transport/API-level failure of the LLM call,
`analyze_with_llm` returns (never throws) the fully degraded record whose
summary embeds the error description and whose other fields all read
"Analysis failed", and the run proceeds to render and persist that record,
exiting 0 with the comment written to the computed output path. -/
theorem c5_transport_failure (args : MainArgs) (env : WorldEnv) (pr : PRInfo)
    (files : List ChangedFile) (diff : String) (e : String)
    (h1 : pyFalsy env.github_token = false)
    (h2 : pyFalsy env.anthropic_api_key = false)
    (h3 : env.pr_fetch = Except.ok pr)
    (h4 : env.output_exists = false)
    (h5 : env.files_fetch = Except.ok files)
    (h6 : env.diff_fetch = Except.ok diff)
    (h7 : env.llm_outcome = LLMOutcome.exn e) :
    analyze_with_llm pr files (analyze_diff diff) env.llm_outcome env.jsonLoads =
      transport_failure_record e ∧
    main args env =
      ⟨0, true, true, true,
        some (output_file_path args.pr_number pr.head_sha,
          generate_comment pr (transport_failure_record e) env.timestamp)⟩ ∧
    dictGet (transport_failure_record e) "summary" "" =
      "Error analyzing with Claude: " ++ e ∧
    dictGet (transport_failure_record e) "risk_assessment" "" = "Analysis failed" ∧
    dictGet (transport_failure_record e) "api_impact" "" = "Analysis failed" ∧
    dictGet (transport_failure_record e) "dependency_impact" "" = "Analysis failed" ∧
    dictGet (transport_failure_record e) "code_quality" "" = "Analysis failed" := by
  refine ⟨by simp [analyze_with_llm, h7], ?_, rfl, rfl, rfl, rfl, rfl⟩
  simp [main, h1, h2, h3, h4, h5, h6, h7, analyze_with_llm]

/-- Claim C5, witness: concrete run in which the LLM call raises `boom`. -/
theorem c5_witness :
    analyze_with_llm prSample [fileSample] (analyze_diff "+x")
        envC5.llm_outcome envC5.jsonLoads = transport_failure_record "boom" ∧
    main ⟨42, "o", "r"⟩ envC5 =
      ⟨0, true, true, true,
        some (output_file_path 42 prSample.head_sha,
          generate_comment prSample (transport_failure_record "boom")
            envC5.timestamp)⟩ ∧
    dictGet (transport_failure_record "boom") "summary" "" =
      "Error analyzing with Claude: " ++ "boom" ∧
    dictGet (transport_failure_record "boom") "risk_assessment" "" = "Analysis failed" ∧
    dictGet (transport_failure_record "boom") "api_impact" "" = "Analysis failed" ∧
    dictGet (transport_failure_record "boom") "dependency_impact" "" = "Analysis failed" ∧
    dictGet (transport_failure_record "boom") "code_quality" "" = "Analysis failed" :=
  c5_transport_failure ⟨42, "o", "r"⟩ envC5 prSample [fileSample] "+x" "boom"
    rfl rfl rfl rfl rfl rfl rfl

/-- Claim C6, counterexample.  The claim quantifies over every input, but
for the empty input the code's early return carries no additions count at
all (the key is absent), even though the empty input has 0 lines beginning
with `+`. -/
theorem c6_counterexample :
    (analyze_diff "").additions = none ∧ linesStartingWith '+' "".data = 0 := by
  decide

/-- Claim C6, amended.  For every non-empty input, the additions count
equals the number of lines beginning with `+` and the deletions count the
number of lines beginning with `-` (per line, MULTILINE, header lines
included), and the total equals their sum; for the empty input the
additions/deletions keys are absent.  In particular the sample diff with 3
`+`-initial lines (one of them the `+++` header) and 1 `-`-initial line
yields additions 3, deletions 1, total 4. -/
theorem c6_amended :
    (∀ d : String, d ≠ "" →
      (analyze_diff d).additions = some (linesStartingWith '+' d.data) ∧
      (analyze_diff d).deletions = some (linesStartingWith '-' d.data) ∧
      (analyze_diff d).total_changes =
        linesStartingWith '+' d.data + linesStartingWith '-' d.data) ∧
    (analyze_diff c6ex).additions = some 3 ∧
    (analyze_diff c6ex).deletions = some 1 ∧
    (analyze_diff c6ex).total_changes = 3 + 1 := by
  refine ⟨?_, by decide, by decide, by decide⟩
  intro d hd
  have h1 := countMultilineStart_eq_linesStartingWith '+' (by decide) d.data
  have h2 := countMultilineStart_eq_linesStartingWith '-' (by decide) d.data
  refine ⟨?_, ?_, ?_⟩ <;> simp [analyze_diff, hd, h1, h2]

/-- Claim C6, witness: the amended count equations at the concrete
non-empty input `+a`. -/
theorem c6_witness :
    (analyze_diff "+a").additions = some (linesStartingWith '+' "+a".data) ∧
    (analyze_diff "+a").deletions = some (linesStartingWith '-' "+a".data) ∧
    (analyze_diff "+a").total_changes =
      linesStartingWith '+' "+a".data + linesStartingWith '-' "+a".data :=
  c6_amended.1 "+a" (by decide)

/-- Claim C7.  For every line beginning with `diff --git`, the path after
the `" b/"` split is taken; a path without a dot contributes no file-type
entry, a path with a dot bumps the counter of the substring after its last
dot.  Concretely, `diff --git a/src/app.ts b/src/app.ts` yields
`{"ts": 1}` and `diff --git a/Makefile b/Makefile` yields no entry. -/
theorem c7_file_types :
    (∀ (ft : List (String × Nat)) (line : List Char),
      isPrefixOfCh "diff --git".data line = true →
      (lastD (splitOnL " b/".data line)).contains '.' = false →
      file_types_step ft line = ft) ∧
    (∀ (ft : List (String × Nat)) (line : List Char),
      isPrefixOfCh "diff --git".data line = true →
      (lastD (splitOnL " b/".data line)).contains '.' = true →
      file_types_step ft line =
        bump ft (String.mk (lastD (splitOnL ['.']
          (lastD (splitOnL " b/".data line)))))) ∧
    (analyze_diff "diff --git a/src/app.ts b/src/app.ts").file_types =
      [("ts", 1)] ∧
    (analyze_diff "diff --git a/Makefile b/Makefile").file_types = [] := by
  refine ⟨?_, ?_, by decide, by decide⟩
  · intro ft line h1 h2
    have h2' : '.' ∉ lastD (splitOnL " b/".data line) := by simpa using h2
    simp [file_types_step, h1, h2']
  · intro ft line h1 h2
    have h2' : '.' ∈ lastD (splitOnL " b/".data line) := by simpa using h2
    simp [file_types_step, h1, h2']

/-- Claim C7, witness: the no-dot case applied at the Makefile header line. -/
theorem c7_witness :
    isPrefixOfCh "diff --git".data "diff --git a/Makefile b/Makefile".data = true ∧
    file_types_step [] "diff --git a/Makefile b/Makefile".data = [] :=
  ⟨by decide, c7_file_types.1 [] _ (by decide) (by decide)⟩

/-- Claim C8.  Endpoint extraction applies the URL and HTTP-client-idiom
patterns case-insensitively; for tuple matches the url (last captured
group) is kept, never the method; matches are collected without
duplicates.  Concretely `https://api.example.com/v1/resource` yields
`api.example.com`, its uppercase variant matches as well, and the axios
idiom contributes the quoted url, not `get`. -/
theorem c8_endpoints :
    "api.example.com" ∈
      (analyze_diff "https://api.example.com/v1/resource").apis_used ∧
    "API.EXAMPLE.COM" ∈
      (analyze_diff "see HTTPS://API.EXAMPLE.COM/v1/x").apis_used ∧
    "https://y.com/z" ∈
      (analyze_diff "axios.get(\"https://y.com/z\")").apis_used ∧
    "get" ∉ (analyze_diff "axios.get(\"https://y.com/z\")").apis_used ∧
    (∀ d : String, (analyze_diff d).apis_used.Nodup) := by
  refine ⟨by decide, by decide, by decide, by decide, ?_⟩
  intro d
  by_cases hd : d = ""
  · simp [analyze_diff, hd]
  · have h : (analyze_diff d).apis_used = apis_used_of d := by
      simp [analyze_diff, hd]
    rw [h, apis_used_of]
    exact nodup_foldl_dedupInsert _ _ _
      (nodup_foldl_dedupInsert _ _ _ List.nodup_nil)

/-- Claim C9.  When the output file for (PR number, first 8 sha chars)
already exists, the run exits 0 without calling the LLM and without
fetching the changed-file list or the diff, and writes nothing. -/
theorem c9_idempotence (args : MainArgs) (env : WorldEnv) (pr : PRInfo)
    (h1 : pyFalsy env.github_token = false)
    (h2 : pyFalsy env.anthropic_api_key = false)
    (h3 : env.pr_fetch = Except.ok pr)
    (h4 : env.output_exists = true) :
    main args env = ⟨0, false, false, false, none⟩ := by
  simp [main, h1, h2, h3, h4]

/-- Claim C9, witness: concrete run with an existing output file. -/
theorem c9_witness : main ⟨42, "o", "r"⟩ envC9 = ⟨0, false, false, false, none⟩ :=
  c9_idempotence ⟨42, "o", "r"⟩ envC9 prSample rfl rfl rfl rfl

/-- Claim C10.  The prompt lists at most the first 10 changed files, in
API order (a prefix of the list), and the analysis summary joins at most
the first 5 endpoints and 5 env-var names; the prompt is built from
exactly these truncations. -/
theorem c10_truncation :
    (∀ files : List ChangedFile,
      filesShown files <+: files ∧ (filesShown files).length ≤ 10) ∧
    (∀ apis : List String,
      apisShown apis <+: apis ∧ (apisShown apis).length ≤ 5) ∧
    (∀ envs : List String,
      envsShown envs <+: envs ∧ (envsShown envs).length ≤ 5) ∧
    (∀ (pr : PRInfo) (files : List ChangedFile) (da : DiffAnalysis),
      build_context pr files da =
        headerPart pr files ++ filesSection (filesShown files) ++
          analysisSummary da ++ instructionBlock) ∧
    apisShown ["a", "b", "c", "d", "e", "f"] = ["a", "b", "c", "d", "e"] := by
  refine ⟨?_, ?_, ?_, fun pr files da => rfl, by decide⟩
  · exact fun files => ⟨List.take_prefix 10 files, List.length_take_le 10 files⟩
  · exact fun apis => ⟨List.take_prefix 5 apis, List.length_take_le 5 apis⟩
  · exact fun envs => ⟨List.take_prefix 5 envs, List.length_take_le 5 envs⟩

end PRReviewer
